import Mathlib

/-! # egos: a one-liner runner for Go snippets

A shallow embedding of `egos.go` and the properties of its script generator,
its build-and-run pipeline and its command controller.

Go strings are modelled as lists of characters.  Every cutset and separator
the program hands to the `strings` package is ASCII, so trimming and
splitting act the same way on code points as on bytes.
-/

namespace Egos

/-- A Go string. -/
abbrev Str := List Char

/-! ## The parts of the Go standard library the generator calls -/

/-- Go `strings.Trim(s, cutset)`: `s` without the leading and trailing
characters that occur in `cutset` (the trailing ones are cut first). -/
def Trim (s cutset : Str) : Str :=
  List.dropWhile (fun c => decide (c ∈ cutset)) (List.rdropWhile (fun c => decide (c ∈ cutset)) s)

/-- Go `strings.Split(s, sep)` for a separator of one byte: the substrings of
`s` between the separators; a string without separator gives the one-element
list holding `s` itself, the empty string included. -/
def Split : Str → Char → List Str
  | [], _ => [[]]
  | c :: cs, sep =>
    if c = sep then [] :: Split cs sep
    else
      match Split cs sep with
      | [] => [[c]]
      | p :: ps => (c :: p) :: ps

/-- Go `strings.Join(elems, sep)`. -/
def Join : List Str → Str → Str
  | [], _ => []
  | [a], _ => a
  | a :: b :: rest, sep => a ++ sep ++ Join (b :: rest) sep

/-- The tail Go `fmt.Sprintf` adds for operands no verb consumed. -/
def sprintfExtra : List Str → Str
  | [] => []
  | [a] => "string=".toList ++ a
  | a :: b :: rest => "string=".toList ++ a ++ ", ".toList ++ sprintfExtra (b :: rest)

/-- Go `fmt.Sprintf` on string operands, for format strings made of literal
text, `%s` and `%%` (the only ones this program has): each `%s` is replaced by
the next operand, copied as it is. -/
def Sprintf : Str → List Str → Str
  | [], [] => []
  | [], a :: args => "%!(EXTRA ".toList ++ sprintfExtra (a :: args) ++ ")".toList
  | [c], args => c :: Sprintf [] args
  | c :: d :: rest, args =>
    if c = '%' then
      if d = 's' then
        match args with
        | [] => "%!s(MISSING)".toList ++ Sprintf rest []
        | a :: args => a ++ Sprintf rest args
      else if d = '%' then '%' :: Sprintf rest args
      else c :: Sprintf (d :: rest) args
    else c :: Sprintf (d :: rest) args

/-! ## The generator -/

/-- The `exit_success` constant of the source (`iota`, so 0). -/
def exit_success : Nat := 0

/-- The `exit_failure` constant of the source (the next `iota`, so 1). -/
def exit_failure : Nat := 1

/-- Script template for no option. -/
def template : Str :=
  "// generated by egos(1)\npackage main\n\n%s\n\nfunc main() \x7b\n%s\n\x7d\n".toList

/-- Script template for n/p option. -/
def template_n : Str :=
  ("// generated by egos(1)\npackage main\n\nimport (\n\t\"bufio\"\n\t\"fmt\"\n\t\"os\"\n)\n\n%s\n\n" ++
   "func fn(line string) \x7b\n%s%s\n\x7d\n\n" ++
   "func doIt(in *os.File) \x7b\n\tscanner := bufio.NewScanner(in)\n\tfor scanner.Scan() \x7b\n" ++
   "\t\tfn(scanner.Text())\n\t\x7d\n\x7d\n\n" ++
   "func main() \x7b\n\targc := len(os.Args)\n\tif argc <= 1 \x7b\n\t\tdoIt(os.Stdin)\n\t\x7d else \x7b\n" ++
   "\t\tfor i := 1; i < argc; i++ \x7b\n\t\t\tinfile := os.Args[i]\n\t\t\tif infile == \"-\" \x7b\n" ++
   "\t\t\t\tdoIt(os.Stdin)\n\t\t\t\x7d else \x7b\n\t\t\t\tin, err := os.Open(infile)\n" ++
   "\t\t\t\tif err != nil \x7b\n\t\t\t\t\tfmt.Fprintln(os.Stderr, err)\n\t\t\t\t\x7d else \x7b\n" ++
   "\t\t\t\t\tdoIt(in)\n\t\t\t\t\tin.Close()\n\t\t\t\t\x7d\n\t\t\t\x7d\n\t\t\x7d\n\t\x7d\n\x7d\n").toList

/-- The `for _, v := range tmp` loop of `generateImport`: every element is
trimmed of spaces and tabs and appended to `pkgs` when `pred` accepts it. -/
def importLoop (pred : Str → Bool) : List Str → List Str → List Str
  | [], pkgs => pkgs
  | v :: tmp, pkgs =>
    let v1 := Trim v " \t".toList
    if pred v1 then importLoop pred tmp (pkgs ++ [v1]) else importLoop pred tmp pkgs

/-- Generate import statements. -/
def generateImport (i_opt : Str) (pred : Str → Bool) : Str :=
  let tmp := Split (Trim i_opt " ;".toList) ';'
  let pkgs := importLoop pred tmp []
  if pkgs.length = 0 then []
  else "import (\n".toList ++ Join pkgs "\n".toList ++ "\n)".toList

/-- The predicate `generateScript` passes in filter mode: the `switch` that
rejects the empty string and the three packages the template imports itself,
double-quoted or back-quoted. -/
def predFilter (s : Str) : Bool :=
  if s = "".toList ∨ s = "\"bufio\"".toList ∨ s = "`bufio`".toList ∨ s = "\"fmt\"".toList
      ∨ s = "`fmt`".toList ∨ s = "\"os\"".toList ∨ s = "`os`".toList then false
  else true

/-- The predicate `generateScript` passes in whole-program mode:
`s != ""`. -/
def predWhole (s : Str) : Bool := decide (s ≠ "".toList)

/-- Generate golang script. -/
def generateScript (orig_src i_opt : Str) (n_opt p_opt : Bool) : Str :=
  let src := Trim orig_src "\t\n\x0b\x0c\r ".toList
  if n_opt || p_opt then
    let is := generateImport i_opt predFilter
    let appendage : Str := if n_opt then "".toList else "\nfmt.Println(line)".toList
    Sprintf template_n [is, src, appendage]
  else
    let is := generateImport i_opt predWhole
    Sprintf template [is, src]

/-! ## The world outside the program -/

/-- A path of the filesystem, as its components. -/
abbrev Path := List Str

/-- What a path of the filesystem holds. -/
inductive Node where
  | dir
  | file (content : Str)
  deriving DecidableEq, Repr

/-- The filesystem: the paths that exist, each with what it holds. -/
abbrev FS := List (Path × Node)

/-- Whether path `p` exists. -/
def FS.has (fs : FS) (p : Path) : Bool := fs.any (fun e => decide (e.1 = p))

/-- Whether anything exists at `p` or below it. -/
def FS.hasUnder (fs : FS) (p : Path) : Bool := fs.any (fun e => decide (p <+: e.1))

/-- A new directory at `p`. -/
def FS.mkdir (fs : FS) (p : Path) : FS := (p, Node.dir) :: fs

/-- A file at `p` with the given content, replacing what `p` held. -/
def FS.write (fs : FS) (p : Path) (data : Str) : FS :=
  (p, Node.file data) :: fs.filter (fun e => decide (e.1 ≠ p))

/-- Go `os.RemoveAll(p)`: it removes `p` and everything below it that it
can.  `stuck` tells the paths it cannot remove (a file in a read-only
directory, say): such a path stays, and so does every directory above it, which
is not empty.  The error it then returns is not part of the state. -/
def FS.removeAll (fs : FS) (stuck : Path → Bool) (p : Path) : FS :=
  fs.filter (fun e =>
    decide (¬ p <+: e.1) || fs.any (fun x => decide (e.1 <+: x.1) && stuck x.1))

/-- Go `filepath.Join(dir, name)` for a single file name. -/
def filepathJoin (dir : Path) (name : Str) : Path := dir ++ [name]

/-- A call the program makes to an external collaborator, in the order made. -/
inductive Call where
  | usage
  | formatSource (src : Str)
  | tempDir
  | writeFile (name : Path) (data : Str)
  | command (argv : List Str)
  | removeAll (dir : Path)
  deriving DecidableEq, Repr

/-- The state the program acts on: the filesystem, the two output streams and
the record of the external calls made so far. -/
structure World where
  fs : FS
  stdout : Str
  stderr : Str
  calls : List Call

/-- How the child process ended. -/
inductive ChildStatus where
  | exited (code : Nat)
  | signaled
  | notStarted
  deriving DecidableEq, Repr

/-- What the compiler does: whether `cmd.Run()` returned an error, what it
wrote to its captured standard error, and the binary it produces on success. -/
structure BuildResult where
  failed : Bool
  diagnostics : Str
  binary : Str

/-- What the child process does: how it ends, what it writes to the inherited
streams, and what it does to the filesystem. -/
structure ChildResult where
  status : ChildStatus
  out : Str
  err : Str
  effect : FS → FS

/-- The external collaborators of one invocation: the program name, the text
`flag.PrintDefaults` writes, the formatter, the outcome of each step of the
pipeline (an error message where the step fails), and the paths the final
`os.RemoveAll` cannot remove. -/
structure Env where
  prog : Str
  flagDefaults : Str
  formatSource : Str → Except Str Str
  tempDir : Except Str Path
  writeFile : Option Str
  build : BuildResult
  child : ChildResult
  removeFails : Path → Bool

/-- Records a call. -/
def World.call (w : World) (c : Call) : World := { w with calls := w.calls ++ [c] }

/-- Go `fmt.Fprintln(os.Stderr, s)`. -/
def World.eprintln (w : World) (s : Str) : World := { w with stderr := w.stderr ++ s ++ "\n".toList }

/-- Go `fmt.Printf("%s", s)`. -/
def World.print (w : World) (s : Str) : World := { w with stdout := w.stdout ++ Sprintf "%s".toList [s] }

/-- Go `(*bytes.Buffer).ReadString(0)` on a fresh buffer: the content up to
and including the first NUL byte, or all of it when it has none. -/
def readString0 : Str → Str
  | [] => []
  | c :: cs => if c = Char.ofNat 0 then [c] else c :: readString0 cs

/-- Whether `cmd.Run()` on the child returns an error: it does unless the
child ran and exited with status 0. -/
def ChildStatus.isErr : ChildStatus → Bool
  | .exited 0 => false
  | _ => true

/-! ## The pipeline and the controller -/

/-- Format golang script. -/
def formatScript (env : Env) (src : Str) : Except Str Str := env.formatSource src

/-- The body of `runScript` after the workspace `dir` has been created and its
removal deferred. -/
def runScriptBody (env : Env) (w : World) (dir : Path) (script : Str) (args : List Str) :
    World × Nat :=
  let scriptFile := filepathJoin dir "script.go".toList
  let execFile := filepathJoin dir "script.exe".toList
  let w := w.call (Call.writeFile scriptFile script)
  match env.writeFile with
  | some err => (w.eprintln err, exit_failure)
  | none =>
    let w := { w with fs := w.fs.write scriptFile script }
    let w := w.call (Call.command ["go".toList, "build".toList, "-o".toList,
      Join execFile "/".toList, Join scriptFile "/".toList])
    if env.build.failed then
      (w.eprintln (readString0 env.build.diagnostics), exit_failure)
    else
      let w := { w with fs := w.fs.write execFile env.build.binary }
      let w := w.call (Call.command (Join execFile "/".toList :: args))
      let w := { w with
        fs := env.child.effect w.fs
        stdout := w.stdout ++ env.child.out
        stderr := w.stderr ++ env.child.err }
      if env.child.status.isErr then (w, exit_failure) else (w, exit_success)

/-- Run golang script. -/
def runScript (env : Env) (w : World) (script : Str) (args : List Str) : World × Nat :=
  let w := w.call Call.tempDir
  match env.tempDir with
  | .error err => (w.eprintln err, exit_failure)
  | .ok dir =>
    let w := { w with fs := w.fs.mkdir dir }
    let r := runScriptBody env w dir script args
    -- defer os.RemoveAll(dir): it runs on every return of the body, its error is dropped
    ({ (r.1.call (Call.removeAll dir)) with fs := r.1.fs.removeAll env.removeFails dir }, r.2)

/-- The options `flag.Parse` delivers. -/
structure Opts where
  d_opt : Bool
  i_opt : Str
  n_opt : Bool
  p_opt : Bool

/-- The `flag.Usage` function `main` installs: the usage line, then the flag
defaults, both on standard error. -/
def usage (env : Env) (w : World) : World :=
  let w := w.call Call.usage
  { w with stderr := w.stderr
      ++ Sprintf "usage: %s [-d] <-i packages> [-n|-p] \x27script\x27 [file ...]\n".toList [env.prog]
      ++ env.flagDefaults }

/-- The controller, after `flag.Parse` succeeded with options `o` and the
positional arguments `args`; the result is the final world and the status
handed to `os.Exit`. -/
def main (env : Env) (w : World) (o : Opts) (args : List Str) : World × Nat :=
  if args.length ≤ 0 then (usage env w, exit_failure)
  else if o.n_opt && o.p_opt then (usage env w, exit_failure)
  else
    let src := generateScript (args.headD []) o.i_opt o.n_opt o.p_opt
    let w := w.call (Call.formatSource src)
    match formatScript env src with
    | .error _ => (w.eprintln "syntax error".toList, exit_failure)
    | .ok script =>
      if o.d_opt then (w.print script, exit_success)
      else runScript env w script (args.drop 1)

end Egos

namespace Egos

/-! ## The specification side -/

/-- The pieces of an import specification: the specification trimmed of
surrounding spaces and semicolons, split on `;`, each piece trimmed of spaces
and tabs. -/
def specPieces (I : Str) : List Str :=
  (Split (Trim I [' ', ';']) ';').map (fun v => Trim v [' ', '\t'])

/-- An import block listing the given clauses one per line; no import syntax
at all when there is no clause. -/
def specImportBlock (clauses : List Str) : Str :=
  match clauses with
  | [] => []
  | _ :: _ => "import (\n".toList ++ (clauses.map (fun c => c ++ ['\n'])).flatten ++ ")".toList

/-- The clauses the filter template imports itself, in both quoting styles. -/
def builtinClauses : List Str :=
  ["\"bufio\"".toList, "`bufio`".toList, "\"fmt\"".toList, "`fmt`".toList,
   "\"os\"".toList, "`os`".toList]

/-- The whitespace `generateScript` trims the snippet of. -/
def snippetSpace : Str := ['\t', '\n', Char.ofNat 11, Char.ofNat 12, '\r', ' ']

/-- The filter program up to its extra import block. -/
def filterHead : Str :=
  "// generated by egos(1)\npackage main\n\nimport (\n\t\"bufio\"\n\t\"fmt\"\n\t\"os\"\n)\n\n".toList

/-- The opening of the per-line callback. -/
def fnOpen : Str := "func fn(line string) \x7b\n".toList

/-- The filter program after the closing of the per-line callback. -/
def filterTail : Str :=
  ("\n\nfunc doIt(in *os.File) \x7b\n\tscanner := bufio.NewScanner(in)\n\tfor scanner.Scan() \x7b\n" ++
   "\t\tfn(scanner.Text())\n\t\x7d\n\x7d\n\n" ++
   "func main() \x7b\n\targc := len(os.Args)\n\tif argc <= 1 \x7b\n\t\tdoIt(os.Stdin)\n\t\x7d else \x7b\n" ++
   "\t\tfor i := 1; i < argc; i++ \x7b\n\t\t\tinfile := os.Args[i]\n\t\t\tif infile == \"-\" \x7b\n" ++
   "\t\t\t\tdoIt(os.Stdin)\n\t\t\t\x7d else \x7b\n\t\t\t\tin, err := os.Open(infile)\n" ++
   "\t\t\t\tif err != nil \x7b\n\t\t\t\t\tfmt.Fprintln(os.Stderr, err)\n\t\t\t\t\x7d else \x7b\n" ++
   "\t\t\t\t\tdoIt(in)\n\t\t\t\t\tin.Close()\n\t\t\t\t\x7d\n\t\t\t\x7d\n\t\t\x7d\n\t\x7d\n\x7d\n").toList

/-- The filter program with the extra import block and the body of the
per-line callback filled in. -/
def filterProgram (block body : Str) : Str :=
  filterHead ++ block ++ "\n\n".toList ++ fnOpen ++ body ++ "\n\x7d".toList ++ filterTail

/-- The whole program with the import block and the body of `main` filled
in. -/
def wholeProgram (block body : Str) : Str :=
  "// generated by egos(1)\npackage main\n\n".toList ++ block
    ++ "\n\nfunc main() \x7b\n".toList ++ body ++ "\n\x7d\n".toList

/-- The file name a path stands for. -/
def pathName (p : Path) : Str := Join p "/".toList

/-- The external calls one run of the pipeline makes, step by step: the
workspace is created; if that worked the source file is written; if that
worked the compiler is invoked; if that worked the binary is executed with the
trailing arguments; the workspace, once created, is removed at the end. -/
def pipelineCalls (env : Env) (script : Str) (args : List Str) : List Call :=
  Call.tempDir ::
    match env.tempDir with
    | .error _ => []
    | .ok dir =>
      Call.writeFile (dir ++ ["script.go".toList]) script ::
        (match env.writeFile with
          | some _ => []
          | none =>
            Call.command ["go".toList, "build".toList, "-o".toList,
                pathName (dir ++ ["script.exe".toList]), pathName (dir ++ ["script.go".toList])] ::
              (if env.build.failed then []
                else [Call.command (pathName (dir ++ ["script.exe".toList]) :: args)]))
        ++ [Call.removeAll dir]

/-- Whether the four steps of the pipeline all succeed. -/
def pipelineSucceeds (env : Env) : Bool :=
  (match env.tempDir with
    | .error _ => false
    | .ok _ => true)
  && env.writeFile.isNone && !env.build.failed && decide (env.child.status = ChildStatus.exited 0)

/-! ## A concrete invocation, for examples -/

/-- A formatter that accepts a program, unchanged, exactly when it has as many
opening as closing braces. -/
def demoFormat (src : Str) : Except Str Str :=
  if src.count (Char.ofNat 123) = src.count (Char.ofNat 125) then .ok src
  else .error "unbalanced braces".toList

/-- An environment in which every step of the pipeline succeeds. -/
def demoEnv : Env where
  prog := "egos".toList
  flagDefaults := []
  formatSource := demoFormat
  tempDir := .ok ["tmp".toList, "egos-1".toList]
  writeFile := none
  build := ⟨false, [], "binary".toList⟩
  child := ⟨ChildStatus.exited 0, "hi\n".toList, [], id⟩
  removeFails := fun _ => false

/-- The world before the invocation: nothing on disk, nothing written. -/
def demoWorld : World := ⟨[], [], [], []⟩

/-- An environment in which every step succeeds and the child leaves, in the
workspace, a directory `keep` holding a file `f` that `os.RemoveAll` cannot
remove (the child made `keep` read-only). -/
def stuckEnv : Env where
  prog := "egos".toList
  flagDefaults := []
  formatSource := demoFormat
  tempDir := .ok ["tmp".toList, "egos-1".toList]
  writeFile := none
  build := ⟨false, [], "binary".toList⟩
  child := ⟨ChildStatus.exited 0, [], [], fun fs =>
    (["tmp".toList, "egos-1".toList, "keep".toList, "f".toList], Node.file []) ::
      (["tmp".toList, "egos-1".toList, "keep".toList], Node.dir) :: fs⟩
  removeFails := fun p =>
    decide (p = ["tmp".toList, "egos-1".toList, "keep".toList, "f".toList])

/-! ## Lemmas on the library functions -/

theorem sprintf_template (a b : Str) :
    Sprintf template [a, b] =
      "// generated by egos(1)\npackage main\n\n".toList ++
        (a ++ ("\n\nfunc main() \x7b\n".toList ++ (b ++ "\n\x7d\n".toList))) := by
  rfl

set_option maxRecDepth 100000 in
theorem sprintf_template_n (a b c : Str) :
    Sprintf template_n [a, b, c] =
      filterHead ++ (a ++ ("\n\n".toList ++ (fnOpen ++ (b ++ (c ++ ("\n\x7d".toList ++ filterTail)))))) := by
  rfl

theorem importLoop_eq (pred : Str → Bool) (tmp pkgs : List Str) :
    importLoop pred tmp pkgs
      = pkgs ++ (tmp.map (fun v => Trim v [' ', '\t'])).filter pred := by
  induction tmp generalizing pkgs with
  | nil => simp [importLoop]
  | cons v tmp ih =>
    simp only [importLoop, List.map_cons, List.filter_cons]
    have e : " \t".toList = [' ', '\t'] := rfl
    rw [e]
    by_cases h : pred (Trim v [' ', '\t']) = true
    · simp [h, ih]
    · simp [h, ih]

theorem join_newline (a : Str) (l : List Str) :
    Join (a :: l) ['\n'] ++ ['\n'] = ((a :: l).map (fun c => c ++ ['\n'])).flatten := by
  induction l generalizing a with
  | nil => simp [Join]
  | cons b l ih =>
    have := ih b
    simp only [Join, List.map_cons, List.flatten_cons, List.append_assoc] at this ⊢
    rw [this]

theorem generateImport_eq (I : Str) (pred : Str → Bool) :
    generateImport I pred = specImportBlock ((specPieces I).filter pred) := by
  have key : ∀ kept : List Str,
      (if kept.length = 0 then ([] : Str)
        else "import (\n".toList ++ Join kept "\n".toList ++ "\n)".toList) = specImportBlock kept := by
    intro kept
    have e2 : "\n".toList = ['\n'] := rfl
    have e3 : "\n)".toList = ['\n'] ++ ")".toList := rfl
    cases kept with
    | nil => simp [specImportBlock]
    | cons a l =>
      simp only [List.length_cons, Nat.add_one_ne_zero, if_false, specImportBlock]
      rw [← join_newline, e2, e3]
      simp [List.append_assoc]
  have e := key (importLoop pred (Split (Trim I " ;".toList) ';') [])
  have e4 : importLoop pred (Split (Trim I " ;".toList) ';') [] = (specPieces I).filter pred := by
    rw [importLoop_eq, List.nil_append]; rfl
  rw [← e4]
  exact e

theorem generateScript_whole_eq (S I : Str) :
    generateScript S I false false
      = wholeProgram (generateImport I predWhole) (Trim S snippetSpace) := by
  simp only [generateScript, wholeProgram, sprintf_template, List.append_assoc]
  rfl

theorem generateScript_filter_eq (S I : Str) (n p : Bool) (h : (n || p) = true) :
    generateScript S I n p
      = filterProgram (generateImport I predFilter)
          (Trim S snippetSpace ++ if n then [] else "\nfmt.Println(line)".toList) := by
  have hs : generateScript S I n p = Sprintf template_n [generateImport I predFilter,
      Trim S snippetSpace, if n then [] else "\nfmt.Println(line)".toList] := by
    unfold generateScript
    rw [if_pos h]
    rfl
  rw [hs, sprintf_template_n]
  unfold filterProgram
  simp only [List.append_assoc]

theorem predWhole_eq : predWhole = fun c => decide (c ≠ []) := rfl

theorem predFilter_eq :
    predFilter = fun c => decide (c ≠ [] ∧ c ∉ builtinClauses) := by
  funext c
  have e : "".toList = ([] : Str) := rfl
  simp only [predFilter, builtinClauses, e, List.mem_cons, List.mem_singleton, List.not_mem_nil,
    or_false]
  by_cases h : c = []
  · simp [h]
  · by_cases h2 : c = "\"bufio\"".toList ∨ c = "`bufio`".toList ∨ c = "\"fmt\"".toList
        ∨ c = "`fmt`".toList ∨ c = "\"os\"".toList ∨ c = "`os`".toList
    · simp [h, h2]
    · simp [h, h2]

theorem trim_subset (s cut : Str) : ∀ c ∈ Trim s cut, c ∈ s := by
  intro c hc
  have h1 := (List.dropWhile_sublist (fun c => decide (c ∈ cut))
    (l := List.rdropWhile (fun c => decide (c ∈ cut)) s)).subset hc
  exact (List.rdropWhile_prefix (fun c => decide (c ∈ cut)) s).subset h1

theorem trim_all (s cut : Str) (h : ∀ c ∈ s, c ∈ cut) : Trim s cut = [] := by
  have h1 : List.rdropWhile (fun c => decide (c ∈ cut)) s = [] := by
    rw [List.rdropWhile_eq_nil_iff]
    intro x hx
    simpa using h x hx
  simp [Trim, h1]

theorem split_mem (s : Str) (sep : Char) :
    ∀ p ∈ Split s sep, ∀ c ∈ p, c ∈ s ∧ c ≠ sep := by
  induction s with
  | nil => simp [Split]
  | cons a s ih =>
    intro p hp c hc
    by_cases h : a = sep
    · simp only [Split, h, if_true, List.mem_cons] at hp
      rcases hp with hp | hp
      · subst hp; simp at hc
      · have := ih p hp c hc
        exact ⟨List.mem_cons_of_mem _ this.1, this.2⟩
    · simp only [Split, h, if_false] at hp
      cases hsp : Split s sep with
      | nil =>
        rw [hsp] at hp
        simp only [List.mem_singleton] at hp
        subst hp
        simp only [List.mem_singleton] at hc
        subst hc
        exact ⟨List.mem_cons_self _ _, h⟩
      | cons q qs =>
        rw [hsp] at hp ih
        simp only [List.mem_cons] at hp
        rcases hp with hp | hp
        · subst hp
          simp only [List.mem_cons] at hc
          rcases hc with hc | hc
          · subst hc
            exact ⟨List.mem_cons_self _ _, h⟩
          · have := ih q (List.mem_cons_self _ _) c hc
            exact ⟨List.mem_cons_of_mem _ this.1, this.2⟩
        · have := ih p (List.mem_cons_of_mem _ hp) c hc
          exact ⟨List.mem_cons_of_mem _ this.1, this.2⟩

theorem specPieces_blank (I : Str) (h : ∀ c ∈ I, c = ' ' ∨ c = '\t' ∨ c = ';') :
    ∀ v ∈ specPieces I, v = [] := by
  intro v hv
  simp only [specPieces, List.mem_map] at hv
  obtain ⟨q, hq, rfl⟩ := hv
  apply trim_all
  intro c hc
  have h1 := split_mem _ _ q hq c hc
  have h2 := h c (trim_subset _ _ c h1.1)
  rcases h2 with h2 | h2 | h2
  · simp [h2]
  · simp [h2]
  · exact absurd h2 h1.2

theorem predFilter_nil : predFilter [] = false := rfl

theorem predWhole_nil : predWhole [] = false := rfl

/-! ## The generator: what the generated program is -/

/-- C1: with neither -n nor -p, the generated program is the whole-program
template whose import block lists exactly the non-empty pieces of the import
specification, one per line, and whose main body is the snippet trimmed of
whitespace; the listed clauses are the pieces in their original order, each
non-empty clause as many times as it was written. -/
theorem generateScript_whole_program (S I : Str) :
    generateScript S I false false
        = wholeProgram (specImportBlock ((specPieces I).filter (fun c => decide (c ≠ []))))
            (Trim S snippetSpace)
      ∧ List.Sublist ((specPieces I).filter (fun c => decide (c ≠ []))) (specPieces I)
      ∧ ∀ c : Str, c ≠ [] →
          ((specPieces I).filter (fun c => decide (c ≠ []))).count c = (specPieces I).count c := by
  refine ⟨?_, List.filter_sublist _, ?_⟩
  · rw [generateScript_whole_eq, generateImport_eq, predWhole_eq]
  · intro c hc
    rw [List.count_filter]
    simpa using hc

/-- C2: in the filter program the body of the per-line callback `fn` is the
trimmed snippet with nothing appended whenever -n is set, and the trimmed
snippet followed immediately by the echo statement when -p is set without
-n. -/
theorem generateScript_fn_body (S I : Str) :
    (∀ p : Bool, generateScript S I true p
        = filterProgram (generateImport I predFilter) (Trim S snippetSpace))
      ∧ generateScript S I false true
        = filterProgram (generateImport I predFilter)
            (Trim S snippetSpace ++ "\nfmt.Println(line)".toList) := by
  constructor
  · intro p
    rw [generateScript_filter_eq S I true p rfl]
    simp
  · rw [generateScript_filter_eq S I false true rfl]
    simp

/-- C3: when -n or -p is set the extra import block lists exactly the trimmed
pieces of the import specification that are neither empty nor one of the
built-in clauses (bufio, fmt, os, double-quoted or back-quoted), in their
original order; in whole-program mode only the empty pieces are dropped, so
none of the built-in clauses is excluded there. -/
theorem generateScript_filter_imports (S I : Str) :
    (∀ p : Bool, generateScript S I true p
        = filterProgram
            (specImportBlock ((specPieces I).filter
              (fun c => decide (c ≠ [] ∧ c ∉ builtinClauses))))
            (Trim S snippetSpace))
      ∧ generateScript S I false true
        = filterProgram
            (specImportBlock ((specPieces I).filter
              (fun c => decide (c ≠ [] ∧ c ∉ builtinClauses))))
            (Trim S snippetSpace ++ "\nfmt.Println(line)".toList)
      ∧ generateScript S I false false
        = wholeProgram (specImportBlock ((specPieces I).filter (fun c => decide (c ≠ []))))
            (Trim S snippetSpace)
      ∧ builtinClauses.filter predWhole = builtinClauses
      ∧ builtinClauses.filter predFilter = [] := by
  refine ⟨?_, ?_, ?_, rfl, rfl⟩
  · intro p
    rw [generateScript_filter_eq S I true p rfl, generateImport_eq, predFilter_eq]
    simp
  · rw [generateScript_filter_eq S I false true rfl, generateImport_eq, predFilter_eq]
    simp
  · rw [generateScript_whole_eq, generateImport_eq, predWhole_eq]

/-- C4: for each of the two predicates `generateScript` uses, `generateImport`
returns the empty string exactly when no piece survives the predicate, which
is the case when the specification has only spaces, tabs and semicolons;
otherwise it returns the import block opened by "import (" and a newline,
closed by a newline and ")", with at least one clause, none of them empty,
between them. -/
theorem generateImport_empty_iff (I : Str) (pred : Str → Bool)
    (hp : pred = predWhole ∨ pred = predFilter) :
    (generateImport I pred = [] ↔ (specPieces I).filter pred = [])
      ∧ ((∀ c ∈ I, c = ' ' ∨ c = '\t' ∨ c = ';') → generateImport I pred = [])
      ∧ ((specPieces I).filter pred ≠ [] →
          generateImport I pred
              = "import (\n".toList ++ Join ((specPieces I).filter pred) "\n".toList
                  ++ "\n)".toList
            ∧ ∀ c ∈ (specPieces I).filter pred, c ≠ []) := by
  have hnil : pred [] = false := by
    rcases hp with rfl | rfl
    · exact predWhole_nil
    · exact predFilter_nil
  have hloop : importLoop pred (Split (Trim I " ;".toList) ';') [] = (specPieces I).filter pred := by
    rw [importLoop_eq, List.nil_append]; rfl
  have hdef : generateImport I pred
      = if ((specPieces I).filter pred).length = 0 then []
        else "import (\n".toList ++ Join ((specPieces I).filter pred) "\n".toList
          ++ "\n)".toList := by
    rw [← hloop]; rfl
  have hiff : generateImport I pred = [] ↔ (specPieces I).filter pred = [] := by
    rw [hdef]
    constructor
    · intro h
      by_cases hl : ((specPieces I).filter pred).length = 0
      · exact List.length_eq_zero.mp hl
      · rw [if_neg hl] at h
        exact absurd h (by simp)
    · intro h
      rw [h]; rfl
  refine ⟨hiff, ?_, ?_⟩
  · intro hall
    rw [hiff, List.filter_eq_nil_iff]
    intro v hv
    rw [specPieces_blank I hall v hv, hnil]
    simp
  · intro hne
    constructor
    · rw [hdef, if_neg]
      intro hl
      exact hne (List.length_eq_zero.mp hl)
    · intro c hc e
      have := (List.mem_filter.mp hc).2
      rw [e, hnil] at this
      exact absurd this (by simp)

/-- Witness of C4: the specification `"fmt"; ;os` under the whole-program
predicate. -/
theorem generateImport_empty_iff_witness :
    (predWhole = predWhole ∨ predWhole = predFilter)
      ∧ (generateImport "\"fmt\"; ;os".toList predWhole = []
          ↔ (specPieces "\"fmt\"; ;os".toList).filter predWhole = [])
      ∧ ((∀ c ∈ "\"fmt\"; ;os".toList, c = ' ' ∨ c = '\t' ∨ c = ';') →
          generateImport "\"fmt\"; ;os".toList predWhole = [])
      ∧ ((specPieces "\"fmt\"; ;os".toList).filter predWhole ≠ [] →
          generateImport "\"fmt\"; ;os".toList predWhole
              = "import (\n".toList
                  ++ Join ((specPieces "\"fmt\"; ;os".toList).filter predWhole) "\n".toList
                  ++ "\n)".toList
            ∧ ∀ c ∈ (specPieces "\"fmt\"; ;os".toList).filter predWhole, c ≠ []) :=
  ⟨Or.inl rfl, generateImport_empty_iff "\"fmt\"; ;os".toList predWhole (Or.inl rfl)⟩

/-- C5, as stated, fails: for the snippet `fmt.Println("hi")` without flags
the generated program has no import declaration at all, and the import path
"fmt" occurs nowhere in it. -/
theorem hello_program_declares_no_import :
    ¬ ("import".toList <:+: generateScript "fmt.Println(\"hi\")".toList [] false false)
      ∧ ¬ ("\"fmt\"".toList <:+: generateScript "fmt.Println(\"hi\")".toList [] false false)
      ∧ ¬ ("`fmt`".toList <:+: generateScript "fmt.Println(\"hi\")".toList [] false false) := by
  set_option maxRecDepth 100000 in decide

/-- C5, amended: for the snippet `fmt.Println("hi")` without flags the
generated program is the whole-program template with an empty import block and
the snippet as the body of `main`; the import of "fmt" is declared when the
caller names it with -i. -/
theorem hello_program_text :
    generateScript "fmt.Println(\"hi\")".toList [] false false
        = ("// generated by egos(1)\npackage main\n\n\n\n" ++
           "func main() \x7b\nfmt.Println(\"hi\")\n\x7d\n").toList
      ∧ generateScript "fmt.Println(\"hi\")".toList "\"fmt\"".toList false false
        = ("// generated by egos(1)\npackage main\n\nimport (\n\"fmt\"\n)\n\n" ++
           "func main() \x7b\nfmt.Println(\"hi\")\n\x7d\n").toList := by
  constructor <;> decide

/-! ## The pipeline and the controller: lemmas -/

theorem sprintf_s (s : Str) : Sprintf "%s".toList [s] = s := by
  have e : "%s".toList = ['%', 's'] := rfl
  rw [e]
  simp [Sprintf]

theorem isErr_eq_false_iff (st : ChildStatus) : st.isErr = false ↔ st = ChildStatus.exited 0 := by
  cases st with
  | exited code =>
    cases code with
    | zero => simp [ChildStatus.isErr]
    | succ k => simp [ChildStatus.isErr]
  | signaled => simp [ChildStatus.isErr]
  | notStarted => simp [ChildStatus.isErr]

theorem runScript_status (env : Env) (w : World) (script : Str) (args : List Str) :
    (runScript env w script args).2 = if pipelineSucceeds env then 0 else 1 := by
  unfold runScript runScriptBody pipelineSucceeds
  cases env.tempDir with
  | error e => simp [exit_failure]
  | ok dir =>
    cases env.writeFile with
    | some e => simp [exit_failure]
    | none =>
      cases hb : env.build.failed with
      | true => simp [exit_failure]
      | false =>
        cases hc : env.child.status.isErr with
        | true =>
          have : env.child.status ≠ ChildStatus.exited 0 := by
            intro h
            rw [(isErr_eq_false_iff _).mpr h] at hc
            exact absurd hc (by simp)
          simp [exit_failure, this]
        | false =>
          have := (isErr_eq_false_iff _).mp hc
          simp [exit_success, this]

theorem runScript_calls (env : Env) (w : World) (script : Str) (args : List Str) :
    (runScript env w script args).1.calls = w.calls ++ pipelineCalls env script args := by
  unfold runScript runScriptBody pipelineCalls
  cases env.tempDir with
  | error e => simp [World.call, World.eprintln]
  | ok dir =>
    cases env.writeFile with
    | some e => simp [World.call, World.eprintln, filepathJoin]
    | none =>
      cases hb : env.build.failed with
      | true => simp [World.call, World.eprintln, filepathJoin, pathName]
      | false =>
        cases hc : env.child.status.isErr with
        | true => simp [World.call, World.eprintln, filepathJoin, pathName]
        | false => simp [World.call, World.eprintln, filepathJoin, pathName]

theorem removeAll_left (fs : FS) (stuck : Path → Bool) (p : Path) :
    ∀ e ∈ fs.removeAll stuck p, p <+: e.1 → ∃ q, e.1 <+: q ∧ stuck q = true := by
  intro e he hpe
  simp only [FS.removeAll, List.mem_filter, Bool.or_eq_true, decide_eq_true_eq,
    List.any_eq_true, Bool.and_eq_true] at he
  rcases he.2 with h | ⟨x, _, hx, hs⟩
  · exact absurd hpe h
  · exact ⟨x.1, hx, hs⟩

theorem removeAll_clean (fs : FS) (stuck : Path → Bool) (p : Path)
    (h : ∀ q, p <+: q → stuck q = false) :
    (fs.removeAll stuck p).hasUnder p = false ∧ (fs.removeAll stuck p).has p = false := by
  have key : ∀ e ∈ fs.removeAll stuck p, ¬ p <+: e.1 := by
    intro e he hpe
    obtain ⟨q, hq, hs⟩ := removeAll_left fs stuck p e he hpe
    rw [h q (hpe.trans hq)] at hs
    exact absurd hs (by simp)
  constructor
  · simp only [FS.hasUnder, List.any_eq_false, decide_eq_true_eq]
    exact key
  · simp only [FS.has, List.any_eq_false, decide_eq_true_eq]
    intro e he heq
    exact key e he (heq ▸ List.prefix_refl _)

/-! ## The pipeline and the controller: what an invocation does -/

/-- C6, as stated, fails: every step succeeds and the status is 0, but the
child left a file `os.RemoveAll` cannot remove, so the workspace directory
still exists when `runScript` returns. -/
theorem runScript_workspace_survives :
    (runScript stuckEnv demoWorld "package main".toList []).2 = 0
      ∧ (runScript stuckEnv demoWorld "package main".toList []).1.fs.has
          ["tmp".toList, "egos-1".toList] = true
      ∧ (runScript stuckEnv demoWorld "package main".toList []).1.fs
          = [(["tmp".toList, "egos-1".toList, "keep".toList, "f".toList], Node.file []),
             (["tmp".toList, "egos-1".toList, "keep".toList], Node.dir),
             (["tmp".toList, "egos-1".toList], Node.dir)] := by
  refine ⟨by decide, by decide, by decide⟩

/-- C6, amended: whatever the outcomes of the write, compile and run steps,
once the workspace directory has been created the last thing `runScript` does
is call `os.RemoveAll` on it; what is left at or below it on return is only a
path that call could not remove or a directory above such a path, so when no
path at or below the workspace resists removal nothing exists there any more;
when the creation itself fails the filesystem is what it was. -/
theorem runScript_removes_workspace (env : Env) (w : World) (script : Str) (args : List Str) :
    (∀ dir : Path,
        (runScript { env with tempDir := .ok dir } w script args).1.calls.getLast?
          = some (Call.removeAll dir))
      ∧ (∀ dir : Path,
          ∀ e ∈ (runScript { env with tempDir := .ok dir } w script args).1.fs,
            dir <+: e.1 → ∃ q, e.1 <+: q ∧ env.removeFails q = true)
      ∧ (∀ dir : Path, (∀ q, dir <+: q → env.removeFails q = false) →
          (runScript { env with tempDir := .ok dir } w script args).1.fs.hasUnder dir = false
            ∧ (runScript { env with tempDir := .ok dir } w script args).1.fs.has dir = false)
      ∧ (∀ msg : Str,
          (runScript { env with tempDir := .error msg } w script args).1.fs = w.fs) := by
  refine ⟨?_, ?_, ?_, ?_⟩
  · intro dir
    simp [runScript, World.call]
  · intro dir
    exact removeAll_left _ _ _
  · intro dir h
    exact removeAll_clean _ _ _ h
  · intro msg
    rfl

/-- Witness of C6: in the environment where every step succeeds and nothing
resists removal, the workspace is gone when `runScript` returns. -/
theorem runScript_removes_workspace_witness :
    (∀ q : Path, ["tmp".toList, "egos-1".toList] <+: q → demoEnv.removeFails q = false)
      ∧ (runScript demoEnv demoWorld "package main".toList []).1.fs.hasUnder
          ["tmp".toList, "egos-1".toList] = false
      ∧ (runScript demoEnv demoWorld "package main".toList []).1.fs.has
          ["tmp".toList, "egos-1".toList] = false :=
  ⟨fun _ _ => rfl,
    (runScript_removes_workspace demoEnv demoWorld "package main".toList []).2.2.1
      ["tmp".toList, "egos-1".toList] (fun _ _ => rfl)⟩

/-- C7: the controller ends in the usage error (the usage text on standard
error, status 1, nothing else called or written) if and only if there is no
positional argument or both -n and -p are set; with both set it does so
whatever the other options and arguments are. -/
theorem main_usage_error_iff (env : Env) (w : World) (o : Opts) (args : List Str) :
    (((main env w o args).2 = 1
        ∧ (main env w o args).1.calls = w.calls ++ [Call.usage]
        ∧ (main env w o args).1.stderr
            = w.stderr ++ "usage: ".toList ++ env.prog
                ++ " [-d] <-i packages> [-n|-p] \x27script\x27 [file ...]\n".toList
                ++ env.flagDefaults
        ∧ (main env w o args).1.stdout = w.stdout
        ∧ (main env w o args).1.fs = w.fs)
      ↔ (args.length = 0 ∨ (o.n_opt = true ∧ o.p_opt = true)))
    ∧ ∀ (d : Bool) (i : Str), main env w ⟨d, i, true, true⟩ args = (usage env w, exit_failure) := by
  have husage : (usage env w).calls = w.calls ++ [Call.usage]
      ∧ (usage env w).stderr
          = w.stderr ++ "usage: ".toList ++ env.prog
              ++ " [-d] <-i packages> [-n|-p] \x27script\x27 [file ...]\n".toList
              ++ env.flagDefaults
      ∧ (usage env w).stdout = w.stdout ∧ (usage env w).fs = w.fs := by
    refine ⟨rfl, ?_, rfl, rfl⟩
    show w.stderr ++ Sprintf _ [env.prog] ++ env.flagDefaults = _
    have : Sprintf "usage: %s [-d] <-i packages> [-n|-p] \x27script\x27 [file ...]\n".toList
        [env.prog] = "usage: ".toList ++ (env.prog
          ++ " [-d] <-i packages> [-n|-p] \x27script\x27 [file ...]\n".toList) := rfl
    rw [this]
    simp only [List.append_assoc]
  constructor
  · constructor
    · intro h
      by_contra hne
      rw [not_or] at hne
      obtain ⟨h0, hnp⟩ := hne
      have hnp2 : (o.n_opt && o.p_opt) = false := by
        cases hn : o.n_opt <;> cases hq : o.p_opt <;> simp_all
      have hcalls := h.2.1
      unfold main at hcalls
      rw [if_neg (by omega)] at hcalls
      simp only [hnp2, Bool.false_eq_true, if_false] at hcalls
      cases hf : formatScript env (generateScript (args.headD []) o.i_opt o.n_opt o.p_opt) with
      | error e =>
        rw [hf] at hcalls
        simp [World.call, World.eprintln] at hcalls
      | ok script =>
        rw [hf] at hcalls
        by_cases hd : o.d_opt = true
        · simp [hd, World.call, World.print] at hcalls
        · simp only [hd, Bool.false_eq_true, if_false] at hcalls
          rw [runScript_calls] at hcalls
          simp [World.call, pipelineCalls] at hcalls
    · intro h
      have hm : main env w o args = (usage env w, exit_failure) := by
        unfold main
        rcases h with h | h
        · rw [if_pos (by omega)]
        · by_cases h0 : args.length ≤ 0
          · rw [if_pos h0]
          · rw [if_neg h0]
            simp [h.1, h.2]
      rw [hm]
      exact ⟨rfl, husage⟩
  · intro d i
    unfold main
    by_cases h0 : args.length ≤ 0
    · rw [if_pos h0]
    · rw [if_neg h0]
      simp

/-- C8: in an accepted invocation whose assembled program the formatter
rejects, with or without -d, the controller writes the line "syntax error" to
standard error and nothing to standard output, leaves the filesystem as it
was, makes no call but the one to the formatter, and exits with status 1. -/
theorem main_syntax_error (env : Env) (w : World) (o : Opts) (a : Str) (rest : List Str)
    (e : Str) (hacc : ¬ (o.n_opt = true ∧ o.p_opt = true))
    (hfmt : env.formatSource (generateScript a o.i_opt o.n_opt o.p_opt) = .error e) :
    main env w o (a :: rest)
      = (⟨w.fs, w.stdout, w.stderr ++ "syntax error\n".toList,
          w.calls ++ [Call.formatSource (generateScript a o.i_opt o.n_opt o.p_opt)]⟩, 1) := by
  have hnp2 : (o.n_opt && o.p_opt) = false := by
    cases hn : o.n_opt <;> cases hq : o.p_opt <;> simp_all
  unfold main
  rw [if_neg (by simp)]
  simp only [hnp2, Bool.false_eq_true, if_false, List.headD_cons, formatScript, hfmt]
  simp [World.call, World.eprintln, exit_failure]

/-- Witness of C8: a snippet with an unclosed brace, under -d. -/
theorem main_syntax_error_witness :
    ¬ ((⟨true, [], false, false⟩ : Opts).n_opt = true ∧ (⟨true, [], false, false⟩ : Opts).p_opt = true)
      ∧ demoEnv.formatSource (generateScript "if true \x7b".toList [] false false)
          = .error "unbalanced braces".toList
      ∧ main demoEnv demoWorld ⟨true, [], false, false⟩ ["if true \x7b".toList]
          = (⟨demoWorld.fs, demoWorld.stdout, demoWorld.stderr ++ "syntax error\n".toList,
              demoWorld.calls
                ++ [Call.formatSource (generateScript "if true \x7b".toList [] false false)]⟩, 1) :=
  ⟨by decide, rfl,
    main_syntax_error demoEnv demoWorld ⟨true, [], false, false⟩ "if true \x7b".toList []
      "unbalanced braces".toList (by decide) rfl⟩

/-- C9: in an accepted invocation with -d whose assembled program passes the
formatter, the controller writes the formatter's output, and nothing else, to
standard output, leaves standard error and the filesystem as they were, makes
no call but the one to the formatter (no workspace, no file, no process), and
exits with status 0, whatever the trailing arguments are. -/
theorem main_dry_run (env : Env) (w : World) (o : Opts) (a : Str) (rest : List Str)
    (script : Str) (hacc : ¬ (o.n_opt = true ∧ o.p_opt = true)) (hd : o.d_opt = true)
    (hfmt : env.formatSource (generateScript a o.i_opt o.n_opt o.p_opt) = .ok script) :
    main env w o (a :: rest)
      = (⟨w.fs, w.stdout ++ script, w.stderr,
          w.calls ++ [Call.formatSource (generateScript a o.i_opt o.n_opt o.p_opt)]⟩, 0) := by
  have hnp2 : (o.n_opt && o.p_opt) = false := by
    cases hn : o.n_opt <;> cases hq : o.p_opt <;> simp_all
  unfold main
  rw [if_neg (by simp)]
  simp only [hnp2, Bool.false_eq_true, if_false, List.headD_cons, formatScript, hfmt, hd, if_true]
  have e : Sprintf ['%', 's'] [script] = script := sprintf_s script
  simp [World.call, World.print, exit_success, e]

/-- Witness of C9: the snippet `fmt.Println("hi")` under -d, with a trailing
argument. -/
theorem main_dry_run_witness :
    ¬ ((⟨true, [], false, false⟩ : Opts).n_opt = true ∧ (⟨true, [], false, false⟩ : Opts).p_opt = true)
      ∧ (⟨true, [], false, false⟩ : Opts).d_opt = true
      ∧ demoEnv.formatSource (generateScript "fmt.Println(\"hi\")".toList [] false false)
          = .ok (generateScript "fmt.Println(\"hi\")".toList [] false false)
      ∧ main demoEnv demoWorld ⟨true, [], false, false⟩ ["fmt.Println(\"hi\")".toList, "x".toList]
          = (⟨demoWorld.fs,
              demoWorld.stdout ++ generateScript "fmt.Println(\"hi\")".toList [] false false,
              demoWorld.stderr,
              demoWorld.calls
                ++ [Call.formatSource (generateScript "fmt.Println(\"hi\")".toList [] false false)]⟩,
            0) :=
  ⟨by decide, rfl, rfl,
    main_dry_run demoEnv demoWorld ⟨true, [], false, false⟩ "fmt.Println(\"hi\")".toList
      ["x".toList] (generateScript "fmt.Println(\"hi\")".toList [] false false)
      (by decide) rfl rfl⟩

/-- C10: in an accepted invocation without -d whose program validates, the
exit status is the one `runScript` returns: 0 when the four steps all succeed
and 1 otherwise; the calls made are those of the pipeline, step by step, the
first failure ending it. -/
theorem main_run_status (env : Env) (w : World) (o : Opts) (a : Str) (rest : List Str)
    (script : Str) (hacc : ¬ (o.n_opt = true ∧ o.p_opt = true)) (hd : o.d_opt = false)
    (hfmt : env.formatSource (generateScript a o.i_opt o.n_opt o.p_opt) = .ok script) :
    main env w o (a :: rest)
        = runScript env (w.call (Call.formatSource (generateScript a o.i_opt o.n_opt o.p_opt)))
            script rest
      ∧ (main env w o (a :: rest)).2 = (if pipelineSucceeds env then 0 else 1)
      ∧ ((main env w o (a :: rest)).2 = 0 ∨ (main env w o (a :: rest)).2 = 1)
      ∧ (main env w o (a :: rest)).1.calls
          = w.calls ++ Call.formatSource (generateScript a o.i_opt o.n_opt o.p_opt)
              :: pipelineCalls env script rest := by
  have hnp2 : (o.n_opt && o.p_opt) = false := by
    cases hn : o.n_opt <;> cases hq : o.p_opt <;> simp_all
  have hm : main env w o (a :: rest)
      = runScript env (w.call (Call.formatSource (generateScript a o.i_opt o.n_opt o.p_opt)))
          script rest := by
    unfold main
    rw [if_neg (by simp)]
    simp only [hnp2, Bool.false_eq_true, if_false, List.headD_cons, formatScript, hfmt, hd,
      List.drop_succ_cons, List.drop_zero]
  refine ⟨hm, ?_, ?_, ?_⟩
  · rw [hm, runScript_status]
  · rw [hm, runScript_status]
    by_cases h : pipelineSucceeds env = true
    · left; simp [h]
    · right; simp [h]
  · rw [hm, runScript_calls]
    simp [World.call]

/-- Witness of C10: the snippet `fmt.Println("hi")` without flags, with a
trailing argument, in an environment where every step succeeds. -/
theorem main_run_status_witness :
    ¬ ((⟨false, [], false, false⟩ : Opts).n_opt = true
        ∧ (⟨false, [], false, false⟩ : Opts).p_opt = true)
      ∧ (⟨false, [], false, false⟩ : Opts).d_opt = false
      ∧ demoEnv.formatSource (generateScript "fmt.Println(\"hi\")".toList [] false false)
          = .ok (generateScript "fmt.Println(\"hi\")".toList [] false false)
      ∧ main demoEnv demoWorld ⟨false, [], false, false⟩ ["fmt.Println(\"hi\")".toList, "x".toList]
          = runScript demoEnv
              (demoWorld.call
                (Call.formatSource (generateScript "fmt.Println(\"hi\")".toList [] false false)))
              (generateScript "fmt.Println(\"hi\")".toList [] false false) ["x".toList]
      ∧ (main demoEnv demoWorld ⟨false, [], false, false⟩
            ["fmt.Println(\"hi\")".toList, "x".toList]).2
          = (if pipelineSucceeds demoEnv then 0 else 1)
      ∧ ((main demoEnv demoWorld ⟨false, [], false, false⟩
            ["fmt.Println(\"hi\")".toList, "x".toList]).2 = 0
          ∨ (main demoEnv demoWorld ⟨false, [], false, false⟩
            ["fmt.Println(\"hi\")".toList, "x".toList]).2 = 1)
      ∧ (main demoEnv demoWorld ⟨false, [], false, false⟩
            ["fmt.Println(\"hi\")".toList, "x".toList]).1.calls
          = demoWorld.calls
              ++ Call.formatSource (generateScript "fmt.Println(\"hi\")".toList [] false false)
              :: pipelineCalls demoEnv
                  (generateScript "fmt.Println(\"hi\")".toList [] false false) ["x".toList] :=
  ⟨by decide, rfl, rfl,
    main_run_status demoEnv demoWorld ⟨false, [], false, false⟩ "fmt.Println(\"hi\")".toList
      ["x".toList] (generateScript "fmt.Println(\"hi\")".toList [] false false)
      (by decide) rfl rfl⟩

end Egos
